import Mathlib

/-!
Shallow embedding of the rating-aggregation subsystem of the
`cinema_platform_back` repository (Mongoose models `Rating` and `Movie`,
and `RatingController`), together with theorems settling the claims
about its specification.

The embedding models the MongoDB document store as explicit Lean state
(`DB`), each controller entry point as a function from that state (plus
the request parameters) to a result together with the updated state, and
the Mongoose `post('save')` / `post('findOneAndDelete')` hooks as an
explicit recompute step whose invocations are recorded in a trace.
JavaScript numbers are modelled as exact rationals (`ℚ`).
-/

namespace Cinema

/-- One `Rating` document (`RatingSchema`): `userId`, `movieId`,
`rating` (a JS number, schema-validated to be an integer 1–5), and the
`timestamps: true` fields. -/
structure RatingRec where
  id : String
  userId : String
  movieId : String
  rating : ℚ
  createdAt : ℕ
  updatedAt : ℕ
deriving DecidableEq, Repr

/-- One `Movie` document (`MovieSchema`), with the fields relevant to the
rating subsystem, including the cached aggregate fields `averageRating`
and `totalRatings`. -/
structure MovieRec where
  id : String
  title : String
  description : String
  genre : List String
  duration : ℤ
  releaseYear : ℤ
  director : Option String
  cast : List String
  poster : String
  videoUrl : String
  videoProvider : String
  averageRating : ℚ
  totalRatings : ℕ
  views : ℕ
  isActive : Bool
deriving DecidableEq, Repr

/-- The document store: the `ratings` and `movies` collections, plus the
ids of existing `User` documents (only existence of a user is consulted
by the rating subsystem, in the `pre('save')` hook). -/
structure DB where
  ratings : List RatingRec
  movies : List MovieRec
  users : List String
deriving DecidableEq, Repr

/-- JavaScript `Math.round`: rounds half-up (`Math.round (x) = ⌊x + 0.5⌋`). -/
def jsRound (q : ℚ) : ℤ := ⌊q + 1/2⌋

/-- `/^[0-9a-fA-F]{24}$/` — the ObjectId format test used both by the
controller and by the `RatingSchema` field validators. -/
def isValidObjectId (s : String) : Bool :=
  s.length == 24 &&
    s.data.all (fun c =>
      c.isDigit || ('a' ≤ c && c ≤ 'f') || ('A' ≤ c && c ≤ 'F'))

/-- `Rating.findOne({userId, movieId})`. -/
def findRating (db : DB) (userId movieId : String) : Option RatingRec :=
  db.ratings.find? (fun r => r.userId == userId && r.movieId == movieId)

/-- `Movie.findOne({_id: movieId, isActive: true})`. -/
def findActiveMovie (db : DB) (movieId : String) : Option MovieRec :=
  db.movies.find? (fun m => m.id == movieId && m.isActive)

/-- `Movie.findById(movieId)` (first `_id` match). -/
def findMovieById (db : DB) (movieId : String) : Option MovieRec :=
  db.movies.find? (fun m => m.id == movieId)

/-- The ratings of one movie: the `$match: { movieId }` stage of the
aggregation pipelines in `RatingSchema.statics`. -/
def ratingsForMovie (db : DB) (movieId : String) : List RatingRec :=
  db.ratings.filter (fun r => r.movieId == movieId)

/-- `RatingSchema.statics.getMovieAverageRating`: `$group` with
`$avg: '$rating'` and `$sum: 1`; returns `{average: 0, total: 0}` when
the movie has no ratings, otherwise the mean rounded to one decimal via
`Math.round(avg * 10) / 10`. -/
def getMovieAverageRating (db : DB) (movieId : String) : ℚ × ℕ :=
  let rs := ratingsForMovie db movieId
  if rs.length = 0 then (0, 0)
  else
    let avg : ℚ := (rs.map (fun r => r.rating)).sum / (rs.length : ℚ)
    ((jsRound (avg * 10) : ℚ) / 10, rs.length)

/-- `Movie.findByIdAndUpdate(movieId, {$set: {averageRating, totalRatings}})`:
updates the first (`_id` is unique in MongoDB) movie whose id matches,
setting exactly the two aggregate fields. -/
def findByIdAndUpdateStats :
    List MovieRec → String → ℚ → ℕ → List MovieRec
  | [], _, _, _ => []
  | m :: ms, movieId, avg, total =>
    if m.id == movieId then
      { m with averageRating := avg, totalRatings := total } :: ms
    else
      m :: findByIdAndUpdateStats ms movieId avg total

/-- `RatingSchema.statics.updateMovieRating` (the aggregate recompute):
queries `getMovieAverageRating` and writes the two cached fields onto
the movie document. -/
def updateMovieRating (db : DB) (movieId : String) : DB :=
  let stats := getMovieAverageRating db movieId
  { db with
      movies := findByIdAndUpdateStats db.movies movieId stats.1 stats.2 }

/-- The `post('save')` / `post('findOneAndDelete')` recompute hook: invokes
`updateMovieRating` once for the affected movie; a failure of the movie
write (`ok = false`) is caught and logged, leaving the store unchanged.
The returned list records the recompute invocation. -/
def postRecomputeHook (db : DB) (movieId : String) (ok : Bool) :
    DB × List String :=
  (if ok then updateMovieRating db movieId else db, [movieId])

/-- A typed error as built by `createError(message, statusCode)` (and by the
schema hooks that attach a `statusCode` to an `Error`). -/
structure ApiError where
  message : String
  statusCode : ℕ
deriving DecidableEq, Repr

/-- `Number.isInteger` on a rational: true iff the JS number is an integer. -/
def isIntegerQ (q : ℚ) : Bool := q.den == 1

/-- The controller's score check
`!Number.isInteger(rating) || rating < 1 || rating > 5`
(`createRating`, `ratingController.ts` line 51): `true` means the score is
rejected with a 400 `ValidationError`. -/
def invalidScore (q : ℚ) : Bool :=
  !(isIntegerQ q) || q < 1 || q > 5

/-- The two `pre('save')` hooks of `RatingSchema`: the movie must exist
(`404 Movie not found`) and be active (`400 Cannot rate an inactive movie`),
and the user must exist (`404 User not found`). Returns the error of the
first failing hook, or `none` when both pass. -/
def preSaveChecks (db : DB) (movieId userId : String) : Option ApiError :=
  match findMovieById db movieId with
  | none => some ⟨"Movie not found", 404⟩
  | some m =>
    if !m.isActive then some ⟨"Cannot rate an inactive movie", 400⟩
    else if !(db.users.contains userId) then some ⟨"User not found", 404⟩
    else none

/-- The write of `existingRating.rating = rating; await existingRating.save()`:
replaces the score and `updatedAt` of the first stored record for the
`(userId, movieId)` pair, leaving its keys and id intact. -/
def setRatingScore :
    List RatingRec → String → String → ℚ → ℕ → List RatingRec
  | [], _, _, _, _ => []
  | r :: rs, userId, movieId, q, now =>
    if r.userId == userId && r.movieId == movieId then
      { r with rating := q, updatedAt := now } :: rs
    else
      r :: setRatingScore rs userId movieId q now

/-- Success payload of the submit path (`createRating` responses): HTTP
status 200 (updated) or 201 (created), the rating document's id, the
movie id, the stored score, and the `createdAt`/`updatedAt` timestamp
returned in `data`. -/
structure SubmitOk where
  status : ℕ
  ratingId : String
  movieId : String
  rating : ℚ
  timestamp : ℕ
deriving DecidableEq, Repr

/-- `existingRating.save()` on the update path of `createRating` /
`updateRating`: Mongoose runs the `pre('save')` hooks, commits the score
change, then fires the `post('save')` recompute hook (whose movie write
may fail, flag `ok`); the controller answers 200. -/
def saveExistingRating (db : DB) (r : RatingRec) (q : ℚ) (now : ℕ)
    (ok : Bool) : Except ApiError SubmitOk × DB × List String :=
  match preSaveChecks db r.movieId r.userId with
  | some e => (.error e, db, [])
  | none =>
    let db1 : DB :=
      { db with ratings := setRatingScore db.ratings r.userId r.movieId q now }
    let step := postRecomputeHook db1 r.movieId ok
    (.ok ⟨200, r.id, r.movieId, q, now⟩, step.1, step.2)

/-- `new Rating({userId, movieId, rating}).save()`: Mongoose runs the schema
validators (ObjectId formats; `rating` integer in 1–5), the `pre('save')`
hooks, then the insert, which the unique index on `(userId, movieId)`
rejects with a duplicate-key error — mapped by the `post('save')` error
handler to `409 You have already rated this movie`. On success the
`post('save')` recompute hook fires and the controller answers 201. -/
def saveNewRating (db : DB) (r : RatingRec) (ok : Bool) :
    Except ApiError SubmitOk × DB × List String :=
  if !(isValidObjectId r.userId) then
    (.error ⟨"User ID must be a valid MongoDB ObjectId", 400⟩, db, [])
  else if !(isValidObjectId r.movieId) then
    (.error ⟨"Movie ID must be a valid MongoDB ObjectId", 400⟩, db, [])
  else if r.rating < 1 then
    (.error ⟨"Rating must be at least 1 star", 400⟩, db, [])
  else if 5 < r.rating then
    (.error ⟨"Rating cannot exceed 5 stars", 400⟩, db, [])
  else if !(isIntegerQ r.rating) then
    (.error ⟨"Rating must be a whole number (1-5)", 400⟩, db, [])
  else
    match preSaveChecks db r.movieId r.userId with
    | some e => (.error e, db, [])
    | none =>
      if db.ratings.any
          (fun x => x.userId == r.userId && x.movieId == r.movieId) then
        (.error ⟨"You have already rated this movie", 409⟩, db, [])
      else
        let db1 : DB := { db with ratings := db.ratings ++ [r] }
        let step := postRecomputeHook db1 r.movieId ok
        (.ok ⟨201, r.id, r.movieId, r.rating, r.createdAt⟩, step.1, step.2)

/-- A concurrent request's committed insert, interleaved between this
request's `findOne` and its `save` (the "first create" race): the storage
layer's unique index admits the racer's record only if its
`(userId, movieId)` pair is not yet present. -/
def applyRace (db : DB) : Option RatingRec → DB
  | none => db
  | some r =>
    if db.ratings.any
        (fun x => x.userId == r.userId && x.movieId == r.movieId) then db
    else { db with ratings := db.ratings ++ [r] }

/-- `RatingController.createRating` (`POST /api/ratings`): auth check,
required-fields check (`!movieId` is falsy for the empty string), ObjectId
format check, score check, active-movie check, then find-then-upsert —
update the existing rating in place, or save a new document. `race` is an
optional concurrent insert committed between `findOne` and `save`;
`newId`/`now` are the fresh document id and clock reading; `ok` is whether
the recompute's movie write succeeds. -/
def createRating (db : DB) (auth : Option String) (movieId : String)
    (rating : ℚ) (race : Option RatingRec) (newId : String) (now : ℕ)
    (ok : Bool) : Except ApiError SubmitOk × DB × List String :=
  match auth with
  | none => (.error ⟨"User not authenticated", 401⟩, db, [])
  | some userId =>
    if movieId == "" then
      (.error ⟨"Movie ID and rating are required", 400⟩, db, [])
    else if !(isValidObjectId movieId) then
      (.error ⟨"Invalid movie ID format", 400⟩, db, [])
    else if invalidScore rating then
      (.error ⟨"Rating must be an integer between 1 and 5", 400⟩, db, [])
    else
      match findActiveMovie db movieId with
      | none => (.error ⟨"Movie not found", 404⟩, db, [])
      | some _ =>
        match findRating db userId movieId with
        | some r => saveExistingRating db r rating now ok
        | none =>
          let db1 := applyRace db race
          saveNewRating db1
            ⟨newId, userId, movieId, rating, now, now⟩ ok

/-- `Rating.findOneAndDelete({userId, movieId})`'s write: removes the first
stored record for the pair. -/
def deleteFirstRating :
    List RatingRec → String → String → List RatingRec
  | [], _, _ => []
  | r :: rs, userId, movieId =>
    if r.userId == userId && r.movieId == movieId then rs
    else r :: deleteFirstRating rs userId movieId

/-- Success payload of `deleteRating`: the `movieId` and `deletedAt: new Date()`. -/
structure DeleteOk where
  movieId : String
  deletedAt : ℕ
deriving DecidableEq, Repr

/-- `RatingController.deleteRating` (`DELETE /api/ratings/:movieId`): auth
check, ObjectId format check, `findOneAndDelete`; `404 Rating not found`
when no document matches, otherwise the record is removed, the
`post('findOneAndDelete')` recompute hook fires (movie write success
flag `ok`), and the response carries the movie id and deletion time. -/
def deleteRating (db : DB) (auth : Option String) (movieId : String)
    (now : ℕ) (ok : Bool) : Except ApiError DeleteOk × DB × List String :=
  match auth with
  | none => (.error ⟨"User not authenticated", 401⟩, db, [])
  | some userId =>
    if !(isValidObjectId movieId) then
      (.error ⟨"Invalid movie ID format", 400⟩, db, [])
    else
      match findRating db userId movieId with
      | none => (.error ⟨"Rating not found", 404⟩, db, [])
      | some r =>
        let db1 : DB :=
          { db with ratings := deleteFirstRating db.ratings userId movieId }
        let step := postRecomputeHook db1 movieId ok
        (.ok ⟨r.movieId, now⟩, step.1, step.2)

/-- Insertion step for `.sort({ createdAt: -1 })` (newest first). -/
def insertByCreatedDesc (r : RatingRec) :
    List RatingRec → List RatingRec
  | [] => [r]
  | x :: xs =>
    if x.createdAt ≤ r.createdAt then r :: x :: xs
    else x :: insertByCreatedDesc r xs

/-- `.sort({ createdAt: -1 })`: the query's newest-first ordering. -/
def sortByCreatedDesc (rs : List RatingRec) : List RatingRec :=
  rs.foldr insertByCreatedDesc []

/-- The `pagination` object of the list responses: current page, computed
page count `Math.ceil(total / limitNum)`, total record count, and the
page size. -/
structure PaginationInfo where
  currentPage : ℤ
  totalPages : ℤ
  totalRatings : ℕ
  ratingsPerPage : ℤ
deriving DecidableEq, Repr

/-- Builds the `pagination` response object of the two list endpoints:
`totalPages = Math.ceil(total / limitNum)` (exact rational division
then ceiling, as in JS). -/
def mkPagination (page limit : ℤ) (total : ℕ) : PaginationInfo :=
  ⟨page, ⌈(total : ℚ) / (limit : ℚ)⌉, total, limit⟩

/-- `RatingController.getUserRatings` (`GET /api/ratings/user`): auth check,
pagination validation (`pageNum < 1 || limitNum < 1 || limitNum > 100`),
then the page slice of the user's ratings (newest first) joined with
their active movies, plus the pagination object. -/
def getUserRatings (db : DB) (auth : Option String) (page limit : ℤ) :
    Except ApiError (List (RatingRec × MovieRec) × PaginationInfo) :=
  match auth with
  | none => .error ⟨"User not authenticated", 401⟩
  | some userId =>
    if page < 1 || limit < 1 || limit > 100 then
      .error ⟨"Invalid pagination parameters", 400⟩
    else
      let mine := db.ratings.filter (fun r => r.userId == userId)
      let slice :=
        ((sortByCreatedDesc mine).drop ((page - 1) * limit).toNat).take
          limit.toNat
      let withMovies :=
        slice.filterMap (fun r =>
          (findActiveMovie db r.movieId).map (fun m => (r, m)))
      .ok (withMovies, mkPagination page limit mine.length)

/-- `RatingController.getMovieRatings` (`GET /api/ratings/movie/:movieId`):
ObjectId format check, active-movie check, pagination validation, then
the movie's statistics (`getMovieAverageRating`), the page slice of its
ratings (newest first), and the pagination object. -/
def getMovieRatings (db : DB) (movieId : String) (page limit : ℤ) :
    Except ApiError ((ℚ × ℕ) × List RatingRec × PaginationInfo) :=
  if !(isValidObjectId movieId) then
    .error ⟨"Invalid movie ID format", 400⟩
  else
    match findActiveMovie db movieId with
    | none => .error ⟨"Movie not found", 404⟩
    | some _ =>
      if page < 1 || limit < 1 || limit > 100 then
        .error ⟨"Invalid pagination parameters", 400⟩
      else
        let forMovie := ratingsForMovie db movieId
        let slice :=
          ((sortByCreatedDesc forMovie).drop ((page - 1) * limit).toNat).take
            limit.toNat
        .ok (getMovieAverageRating db movieId, slice,
          mkPagination page limit forMovie.length)

/-- One externally triggered operation of the rating lifecycle: a rating
submission (`POST /api/ratings`) or a rating deletion
(`DELETE /api/ratings/:movieId`), with its request parameters and
environment (race, fresh id, clock, recompute-write success). -/
inductive Op where
  | submit (auth : Option String) (movieId : String) (rating : ℚ)
      (race : Option RatingRec) (newId : String) (now : ℕ) (ok : Bool)
  | remove (auth : Option String) (movieId : String) (now : ℕ) (ok : Bool)
deriving Repr

/-- The store state after one operation. -/
def applyOp (db : DB) : Op → DB
  | .submit auth movieId rating race newId now ok =>
    (createRating db auth movieId rating race newId now ok).2.1
  | .remove auth movieId now ok =>
    (deleteRating db auth movieId now ok).2.1

/-- The store state after a sequence of operations. -/
def runOps (db : DB) : List Op → DB
  | [] => db
  | op :: ops => runOps (applyOp db op) ops

/-- The key of the unique compound index
`RatingSchema.index({userId: 1, movieId: 1}, {unique: true})`. -/
def ratingKey (r : RatingRec) : String × String := (r.userId, r.movieId)

/-- The unique-index invariant: no two stored rating records share a
`(userId, movieId)` pair. -/
def UniqueIndexOk (db : DB) : Prop := (db.ratings.map ratingKey).Nodup

instance (db : DB) : Decidable (UniqueIndexOk db) :=
  decidable_of_iff ((db.ratings.map ratingKey).Nodup) Iff.rfl

/-- Modelled from the spec: rounding "to one decimal place using
round-half-away-from-zero" — the spec's wording of the rounding mode, to
be compared with the code's `Math.round(x * 10) / 10`. -/
def spec_roundHalfAwayFromZero (q : ℚ) : ℤ :=
  if 0 ≤ q then ⌊q + 1/2⌋ else -⌊-q + 1/2⌋

/-- Modelled from the spec: `countAndAverageForMovie` as §4.1 words it —
the arithmetic mean of the given scores rounded to one decimal with
round-half-away-from-zero, and their count; `(0, 0)` for no scores. -/
def spec_ratingStats (scores : List ℚ) : ℚ × ℕ :=
  if scores = [] then (0, 0)
  else
    ((spec_roundHalfAwayFromZero ((scores.sum / (scores.length : ℚ)) * 10) : ℚ)
        / 10,
      scores.length)

/-- The pointwise frame condition of a recompute on the movie collection:
every field other than the two cached aggregate fields is unchanged, and
a movie whose id is not the target is wholly unchanged. -/
def StatsOnlyChange (movieId : String) (m m' : MovieRec) : Prop :=
  m'.id = m.id ∧ m'.title = m.title ∧ m'.description = m.description ∧
    m'.genre = m.genre ∧ m'.duration = m.duration ∧
    m'.releaseYear = m.releaseYear ∧ m'.director = m.director ∧
    m'.cast = m.cast ∧ m'.poster = m.poster ∧ m'.videoUrl = m.videoUrl ∧
    m'.videoProvider = m.videoProvider ∧ m'.views = m.views ∧
    m'.isActive = m.isActive ∧ (m.id ≠ movieId → m' = m)

/-! ### Concrete sample data (used to instantiate the theorems) -/

/-- A sample user id (a well-formed 24-hex-character ObjectId). -/
def uidA : String := "aaaaaaaaaaaaaaaaaaaaaaaa"

/-- A second sample user id. -/
def uidB : String := "bbbbbbbbbbbbbbbbbbbbbbbb"

/-- A third sample user id. -/
def uidC : String := "0123456789abcdef01234567"

/-- A sample movie id. -/
def midM : String := "cccccccccccccccccccccccc"

/-- A sample active movie with empty aggregate cache. -/
def movieM : MovieRec :=
  ⟨midM, "Inception", "A thief steals corporate secrets in dreams.",
    ["Sci-Fi"], 148, 2010, none, [], "https://img.example/p.jpg",
    "https://video.example/v.mp4", "external", 0, 0, 0, true⟩

/-- A stored rating: user A gave `movieM` a 4. -/
def ratA : RatingRec := ⟨"ridA", uidA, midM, 4, 0, 0⟩

/-- A store with `movieM`, users A/B/C and no ratings. -/
def dbEmpty : DB := ⟨[], [movieM], [uidA, uidB, uidC]⟩

/-- A store in which user A has already rated `movieM`. -/
def dbRated : DB := ⟨[ratA], [movieM], [uidA, uidB, uidC]⟩

/-- A concurrent request's record: user A's racing first rating (score 5)
for `movieM`, committed between this request's `findOne` and its `save`. -/
def racedRating : RatingRec := ⟨"ridB", uidA, midM, 5, 0, 0⟩

/-- A store holding the rating scores [5, 4, 5] for `movieM`. -/
def dbFives : DB :=
  ⟨[⟨"r1", uidA, midM, 5, 0, 0⟩, ⟨"r2", uidB, midM, 4, 1, 1⟩,
      ⟨"r3", uidC, midM, 5, 2, 2⟩], [movieM], [uidA, uidB, uidC]⟩

/-! ### Basic lemmas about the recompute -/

lemma ratings_updateMovieRating (db : DB) (movieId : String) :
    (updateMovieRating db movieId).ratings = db.ratings := rfl

lemma users_updateMovieRating (db : DB) (movieId : String) :
    (updateMovieRating db movieId).users = db.users := rfl

lemma getMovieAverageRating_congr (db1 db2 : DB)
    (h : db1.ratings = db2.ratings) (movieId : String) :
    getMovieAverageRating db1 movieId = getMovieAverageRating db2 movieId := by
  unfold getMovieAverageRating ratingsForMovie
  rw [h]

lemma findByIdAndUpdateStats_idem (ms : List MovieRec) (mid : String)
    (a : ℚ) (t : ℕ) :
    findByIdAndUpdateStats (findByIdAndUpdateStats ms mid a t) mid a t =
      findByIdAndUpdateStats ms mid a t := by
  induction ms with
  | nil => rfl
  | cons m ms ih =>
    by_cases h : m.id == mid
    · simp [findByIdAndUpdateStats, h]
    · simp [findByIdAndUpdateStats, h, ih]

/-- C6: the aggregate recompute is idempotent — with no intervening rating
writes, a second `updateMovieRating` run leaves the store (in particular
the movie's `averageRating` and `totalRatings`) exactly as the first run
left it. -/
theorem recompute_idempotent (db : DB) (movieId : String) :
    updateMovieRating (updateMovieRating db movieId) movieId =
      updateMovieRating db movieId := by
  have hstats :
      getMovieAverageRating (updateMovieRating db movieId) movieId =
        getMovieAverageRating db movieId :=
    getMovieAverageRating_congr _ _ (ratings_updateMovieRating db movieId) _
  show
    { updateMovieRating db movieId with
        movies := findByIdAndUpdateStats (updateMovieRating db movieId).movies
          movieId
          (getMovieAverageRating (updateMovieRating db movieId) movieId).1
          (getMovieAverageRating (updateMovieRating db movieId) movieId).2 } =
      updateMovieRating db movieId
  rw [hstats]
  show
    { updateMovieRating db movieId with
        movies := findByIdAndUpdateStats
          (findByIdAndUpdateStats db.movies movieId
            (getMovieAverageRating db movieId).1
            (getMovieAverageRating db movieId).2) movieId
          (getMovieAverageRating db movieId).1
          (getMovieAverageRating db movieId).2 } =
      updateMovieRating db movieId
  rw [findByIdAndUpdateStats_idem]
  rfl

lemma findByIdAndUpdateStats_frame (ms : List MovieRec) (mid : String)
    (a : ℚ) (t : ℕ) :
    List.Forall₂ (StatsOnlyChange mid) ms (findByIdAndUpdateStats ms mid a t) := by
  induction ms with
  | nil => exact .nil
  | cons m ms ih =>
    by_cases h : m.id == mid
    · simp only [findByIdAndUpdateStats, if_pos h]
      refine .cons ?_ ?_
      · refine ⟨rfl, rfl, rfl, rfl, rfl, rfl, rfl, rfl, rfl, rfl, rfl, rfl,
          rfl, fun hne => absurd (by simpa using h) hne⟩
      · exact (List.forall₂_same).2 fun x _ =>
          ⟨rfl, rfl, rfl, rfl, rfl, rfl, rfl, rfl, rfl, rfl, rfl, rfl, rfl,
            fun _ => rfl⟩
    · simp only [findByIdAndUpdateStats, if_neg h]
      exact .cons
        ⟨rfl, rfl, rfl, rfl, rfl, rfl, rfl, rfl, rfl, rfl, rfl, rfl, rfl,
          fun _ => rfl⟩ ih

/-- C10: a recompute writes only the `averageRating` and `totalRatings`
fields of the targeted movie — ratings and users are untouched, every
other field of every movie is unchanged, and a movie with a different id
is wholly unchanged. -/
theorem recompute_writes_stats_only (db : DB) (movieId : String) :
    (updateMovieRating db movieId).ratings = db.ratings ∧
    (updateMovieRating db movieId).users = db.users ∧
    List.Forall₂ (StatsOnlyChange movieId)
      db.movies (updateMovieRating db movieId).movies :=
  ⟨rfl, rfl, findByIdAndUpdateStats_frame db.movies movieId _ _⟩

/-- C10 at a concrete store: the recompute at `dbFives` leaves ratings and
users untouched and changes nothing but the aggregate fields of movies. -/
theorem recompute_writes_stats_only_witness :
    (updateMovieRating dbFives midM).ratings = dbFives.ratings ∧
    (updateMovieRating dbFives midM).users = dbFives.users ∧
    List.Forall₂ (StatsOnlyChange midM)
      dbFives.movies (updateMovieRating dbFives midM).movies :=
  recompute_writes_stats_only dbFives midM

/-! ### C2: the aggregate query against the spec's wording -/

/-- C2: for every store whose rating scores are in the schema range and
every movie, `getMovieAverageRating` returns exactly what the spec's
`countAndAverageForMovie` wording demands: the count of the movie's
ratings together with their mean rounded to one decimal by
round-half-away-from-zero, and `(0, 0)` when there are no ratings. -/
theorem getMovieAverageRating_matches_spec (db : DB) (movieId : String)
    (h : ∀ r ∈ db.ratings, 1 ≤ r.rating ∧ r.rating ≤ 5) :
    getMovieAverageRating db movieId =
      spec_ratingStats ((ratingsForMovie db movieId).map (fun r => r.rating)) := by
  have hsub : ∀ r ∈ ratingsForMovie db movieId, 1 ≤ r.rating ∧ r.rating ≤ 5 :=
    fun r hr => h r (List.mem_filter.mp hr).1
  unfold getMovieAverageRating spec_ratingStats
  by_cases hlen : (ratingsForMovie db movieId).length = 0
  · have hnil : ratingsForMovie db movieId = [] := List.length_eq_zero.mp hlen
    simp [hnil]
  · have hne : (ratingsForMovie db movieId).map (fun r => r.rating) ≠ [] := by
      intro hmapnil
      exact hlen (by simp [List.map_eq_nil_iff.mp hmapnil])
    have hsum : (0 : ℚ) ≤
        ((ratingsForMovie db movieId).map (fun r => r.rating)).sum := by
      refine List.sum_nonneg ?_
      intro x hx
      obtain ⟨r, hr, hrx⟩ := List.mem_map.mp hx
      exact hrx ▸ le_trans zero_le_one (hsub r hr).1
    have havg : (0 : ℚ) ≤
        ((ratingsForMovie db movieId).map (fun r => r.rating)).sum /
          ((ratingsForMovie db movieId).length : ℚ) * 10 :=
      mul_nonneg (div_nonneg hsum (Nat.cast_nonneg _)) (by norm_num)
    rw [if_neg hlen, if_neg hne]
    have hcast : (((ratingsForMovie db movieId).map (fun r => r.rating)).length : ℚ)
        = ((ratingsForMovie db movieId).length : ℚ) := by
      rw [List.length_map]
    rw [spec_roundHalfAwayFromZero, hcast, if_pos havg]
    simp [jsRound, List.length_map]

/-- C2 at a concrete store: `dbFives` holds the scores [5, 4, 5] for
`movieM`; the hypothesis holds, the spec equation holds, and the computed
statistics are `{average: 4.7, total: 3}`. -/
theorem getMovieAverageRating_matches_spec_witness :
    (∀ r ∈ dbFives.ratings, 1 ≤ r.rating ∧ r.rating ≤ 5) ∧
    getMovieAverageRating dbFives midM =
      spec_ratingStats ((ratingsForMovie dbFives midM).map (fun r => r.rating)) ∧
    getMovieAverageRating dbFives midM = (47/10, 3) :=
  ⟨by decide, getMovieAverageRating_matches_spec dbFives midM (by decide),
    by
      have hfil : ratingsForMovie dbFives midM = dbFives.ratings := by decide
      unfold getMovieAverageRating jsRound
      rw [hfil]
      simp only [dbFives, List.length_cons, List.length_nil, List.map_cons,
        List.map_nil, List.sum_cons, List.sum_nil]
      norm_num [Prod.ext_iff, Int.floor_eq_iff]⟩

/-! ### C4: a failed aggregate write is tolerated -/

lemma saveExistingRating_flag (db : DB) (r : RatingRec) (q : ℚ) (now : ℕ) :
    (saveExistingRating db r q now false).1 =
      (saveExistingRating db r q now true).1 ∧
    (saveExistingRating db r q now false).2.1.ratings =
      (saveExistingRating db r q now true).2.1.ratings ∧
    (saveExistingRating db r q now false).2.1.movies = db.movies := by
  unfold saveExistingRating
  cases h : preSaveChecks db r.movieId r.userId with
  | some e => exact ⟨rfl, rfl, rfl⟩
  | none => exact ⟨rfl, rfl, rfl⟩

lemma saveNewRating_flag (db : DB) (r : RatingRec) :
    (saveNewRating db r false).1 = (saveNewRating db r true).1 ∧
    (saveNewRating db r false).2.1.ratings =
      (saveNewRating db r true).2.1.ratings ∧
    (saveNewRating db r false).2.1.movies = db.movies := by
  unfold saveNewRating
  split_ifs <;>
    first
      | exact ⟨rfl, rfl, rfl⟩
      | (cases h : preSaveChecks db r.movieId r.userId <;>
          simp [h, postRecomputeHook, updateMovieRating])

lemma createRating_flag (db : DB) (auth : Option String) (movieId : String)
    (q : ℚ) (race : Option RatingRec) (newId : String) (now : ℕ) :
    (createRating db auth movieId q race newId now false).1 =
      (createRating db auth movieId q race newId now true).1 ∧
    (createRating db auth movieId q race newId now false).2.1.ratings =
      (createRating db auth movieId q race newId now true).2.1.ratings ∧
    (createRating db auth movieId q race newId now false).2.1.movies =
      db.movies := by
  cases auth with
  | none => exact ⟨rfl, rfl, rfl⟩
  | some u =>
    simp only [createRating]
    split_ifs with h1 h2 h3
    · exact ⟨rfl, rfl, rfl⟩
    · exact ⟨rfl, rfl, rfl⟩
    · exact ⟨rfl, rfl, rfl⟩
    · cases h4 : findActiveMovie db movieId with
      | none => exact ⟨rfl, rfl, rfl⟩
      | some m =>
        simp only []
        cases h5 : findRating db u movieId with
        | some r =>
          simp only []
          exact saveExistingRating_flag db r q now
        | none =>
          simp only []
          have := saveNewRating_flag (applyRace db race)
            ⟨newId, u, movieId, q, now, now⟩
          refine ⟨this.1, this.2.1, this.2.2.trans ?_⟩
          unfold applyRace
          cases race with
          | none => rfl
          | some x =>
            by_cases hx : db.ratings.any
                (fun y => y.userId == x.userId && y.movieId == x.movieId)
            · simp only [hx]
              rfl
            · simp only [hx]
              rfl

lemma deleteRating_flag (db : DB) (auth : Option String) (movieId : String)
    (now : ℕ) :
    (deleteRating db auth movieId now false).1 =
      (deleteRating db auth movieId now true).1 ∧
    (deleteRating db auth movieId now false).2.1.ratings =
      (deleteRating db auth movieId now true).2.1.ratings ∧
    (deleteRating db auth movieId now false).2.1.movies = db.movies := by
  cases auth with
  | none => exact ⟨rfl, rfl, rfl⟩
  | some u =>
    simp only [deleteRating]
    split_ifs with h1
    · exact ⟨rfl, rfl, rfl⟩
    · cases h2 : findRating db u movieId with
      | none => simp
      | some r => simp [postRecomputeHook, updateMovieRating]

/-- C4: a failed aggregate-recompute write after a successful rating
mutation is not propagated — for every submit or delete request, the
response (success or error) is identical whether the movie write succeeds
or fails, the committed state of the ratings collection is identical in
both cases (the mutation stays in place, no rollback), and when the movie
write fails the movie collection is left untouched. -/
theorem recompute_failure_tolerated (db : DB) (auth : Option String)
    (movieId : String) (q : ℚ) (race : Option RatingRec) (newId : String)
    (now : ℕ) :
    ((createRating db auth movieId q race newId now false).1 =
        (createRating db auth movieId q race newId now true).1 ∧
      (createRating db auth movieId q race newId now false).2.1.ratings =
        (createRating db auth movieId q race newId now true).2.1.ratings ∧
      (createRating db auth movieId q race newId now false).2.1.movies =
        db.movies) ∧
    ((deleteRating db auth movieId now false).1 =
        (deleteRating db auth movieId now true).1 ∧
      (deleteRating db auth movieId now false).2.1.ratings =
        (deleteRating db auth movieId now true).2.1.ratings ∧
      (deleteRating db auth movieId now false).2.1.movies = db.movies) :=
  ⟨createRating_flag db auth movieId q race newId now,
    deleteRating_flag db auth movieId now⟩

/-! ### C1: every successful mutation is followed by exactly one recompute -/

lemma find?_findByIdAndUpdateStats (ms : List MovieRec) (mid : String)
    (a : ℚ) (t : ℕ) :
    (findByIdAndUpdateStats ms mid a t).find? (fun m => m.id == mid) =
      (ms.find? (fun m => m.id == mid)).map
        (fun m => { m with averageRating := a, totalRatings := t }) := by
  induction ms with
  | nil => rfl
  | cons m ms ih =>
    by_cases h : m.id == mid
    · simp [findByIdAndUpdateStats, h, List.find?_cons_of_pos]
    · simp [findByIdAndUpdateStats, h, List.find?_cons_of_neg, ih]

lemma preSaveChecks_none_movie (db : DB) (mid u : String)
    (h : preSaveChecks db mid u = none) : (findMovieById db mid).isSome := by
  unfold preSaveChecks at h
  cases hm : findMovieById db mid with
  | none => rw [hm] at h; exact absurd h (by simp)
  | some m => rfl

lemma stats_after_recompute (db : DB) (mid : String)
    (h : (findMovieById db mid).isSome) :
    (findMovieById (updateMovieRating db mid) mid).map
        (fun m => (m.averageRating, m.totalRatings)) =
      some (getMovieAverageRating (updateMovieRating db mid) mid) := by
  obtain ⟨m, hm⟩ := Option.isSome_iff_exists.mp h
  have hcongr :
      getMovieAverageRating (updateMovieRating db mid) mid =
        getMovieAverageRating db mid :=
    getMovieAverageRating_congr _ _ rfl mid
  have hfind :
      findMovieById (updateMovieRating db mid) mid =
        ((findMovieById db mid).map
          (fun x => { x with
            averageRating := (getMovieAverageRating db mid).1,
            totalRatings := (getMovieAverageRating db mid).2 })) :=
    find?_findByIdAndUpdateStats db.movies mid _ _
  rw [hfind, hcongr]
  unfold findMovieById at hm
  unfold findMovieById
  rw [hm]
  rfl

lemma findRating_some (db : DB) (u mid : String) (r : RatingRec)
    (h : findRating db u mid = some r) : r.userId = u ∧ r.movieId = mid := by
  have := List.find?_some h
  simp only [Bool.and_eq_true, beq_iff_eq] at this
  exact this

lemma saveExistingRating_ok_inv (db : DB) (r : RatingRec) (q : ℚ) (now : ℕ)
    (res : SubmitOk) (db' : DB) (tr : List String)
    (h : saveExistingRating db r q now true = (.ok res, db', tr)) :
    tr = [r.movieId] ∧
    db' = updateMovieRating
      { db with ratings := setRatingScore db.ratings r.userId r.movieId q now }
      r.movieId ∧
    (findMovieById db r.movieId).isSome := by
  unfold saveExistingRating at h
  cases hpre : preSaveChecks db r.movieId r.userId with
  | some e =>
    simp only [hpre] at h
    exact absurd h (by simp)
  | none =>
    simp only [hpre, postRecomputeHook, if_pos] at h
    rw [Prod.mk.injEq, Prod.mk.injEq] at h
    exact ⟨h.2.2.symm, h.2.1.symm, preSaveChecks_none_movie db r.movieId r.userId hpre⟩

lemma saveNewRating_ok_inv (db : DB) (r : RatingRec) (res : SubmitOk)
    (db' : DB) (tr : List String)
    (h : saveNewRating db r true = (.ok res, db', tr)) :
    tr = [r.movieId] ∧
    db' = updateMovieRating { db with ratings := db.ratings ++ [r] }
      r.movieId ∧
    (findMovieById db r.movieId).isSome := by
  unfold saveNewRating at h
  cases hpre : preSaveChecks db r.movieId r.userId with
  | some e =>
    simp only [hpre] at h
    split_ifs at h <;> (injection h with h1 h2; exact Except.noConfusion h1)
  | none =>
    simp only [hpre, postRecomputeHook, if_pos] at h
    split_ifs at h <;>
      try (injection h with h1 h2; exact Except.noConfusion h1)
    rw [Prod.mk.injEq, Prod.mk.injEq] at h
    exact ⟨h.2.2.symm, h.2.1.symm, preSaveChecks_none_movie db r.movieId r.userId hpre⟩

lemma movies_applyRace (db : DB) (race : Option RatingRec) :
    (applyRace db race).movies = db.movies := by
  cases race with
  | none => rfl
  | some x =>
    unfold applyRace
    by_cases hx : db.ratings.any
        (fun y => y.userId == x.userId && y.movieId == x.movieId)
    · simp only [hx]
      rfl
    · simp only [hx]
      rfl

/-- C1: for every submit or delete request that completes successfully
with a succeeding recompute write, exactly one recompute of the affected
movie runs (the trace is `[movieId]`), and afterwards the movie's cached
`averageRating`/`totalRatings` equal the aggregate
(`getMovieAverageRating` — the rounded mean and count of the movie's
current rating records) computed over the resulting store. -/
theorem mutation_recomputes_aggregate (db : DB) (auth : Option String)
    (movieId : String) (q : ℚ) (race : Option RatingRec) (newId : String)
    (now : ℕ) :
    (∀ res db' tr,
      createRating db auth movieId q race newId now true = (.ok res, db', tr) →
        tr = [movieId] ∧
        (findMovieById db' movieId).map
            (fun m => (m.averageRating, m.totalRatings)) =
          some (getMovieAverageRating db' movieId)) ∧
    (∀ res db' tr, (findMovieById db movieId).isSome →
      deleteRating db auth movieId now true = (.ok res, db', tr) →
        tr = [movieId] ∧
        (findMovieById db' movieId).map
            (fun m => (m.averageRating, m.totalRatings)) =
          some (getMovieAverageRating db' movieId)) := by
  constructor
  · intro res db' tr h
    cases auth with
    | none => exact absurd h (by simp [createRating])
    | some u =>
      simp only [createRating] at h
      split_ifs at h <;>
        try (injection h with h1 h2; exact Except.noConfusion h1)
      cases hact : findActiveMovie db movieId with
      | none =>
        simp only [hact] at h
        exact absurd h (by simp)
      | some m =>
        simp only [hact] at h
        cases hex : findRating db u movieId with
        | some r0 =>
          simp only [hex] at h
          obtain ⟨htr, hdb, hsome⟩ := saveExistingRating_ok_inv _ _ _ _ _ _ _ h
          obtain ⟨hu, hmid⟩ := findRating_some db u movieId r0 hex
          rw [hmid] at htr hdb hsome
          refine ⟨htr, ?_⟩
          rw [hdb]
          exact stats_after_recompute _ movieId hsome
        | none =>
          simp only [hex] at h
          obtain ⟨htr, hdb, hsome⟩ := saveNewRating_ok_inv _ _ _ _ _ h
          refine ⟨htr, ?_⟩
          rw [hdb]
          exact stats_after_recompute _ movieId hsome
  · intro res db' tr hmv h
    cases auth with
    | none => exact absurd h (by simp [deleteRating])
    | some u =>
      simp only [deleteRating] at h
      split_ifs at h <;>
        try (injection h with h1 h2; exact Except.noConfusion h1)
      cases hex : findRating db u movieId with
      | none =>
        simp only [hex] at h
        exact absurd h (by simp)
      | some r0 =>
        simp only [hex, postRecomputeHook, if_pos] at h
        rw [Prod.mk.injEq, Prod.mk.injEq] at h
        refine ⟨h.2.2.symm, ?_⟩
        rw [← h.2.1]
        exact stats_after_recompute _ movieId hmv

/-- C1 at concrete stores: a first rating (score 4 on the empty store) and
a deletion (of user A's rating) each trace exactly one recompute of
`movieM` and leave its cached aggregate equal to the aggregate query over
the resulting store. -/
theorem mutation_recomputes_aggregate_witness :
    ((createRating dbEmpty (some uidA) midM 4 none "ridA" 0 true).2.2 =
        [midM] ∧
      (findMovieById
            (createRating dbEmpty (some uidA) midM 4 none "ridA" 0 true).2.1
            midM).map (fun m => (m.averageRating, m.totalRatings)) =
        some (getMovieAverageRating
          (createRating dbEmpty (some uidA) midM 4 none "ridA" 0 true).2.1
          midM)) ∧
    ((deleteRating dbRated (some uidA) midM 7 true).2.2 = [midM] ∧
      (findMovieById (deleteRating dbRated (some uidA) midM 7 true).2.1
          midM).map (fun m => (m.averageRating, m.totalRatings)) =
        some (getMovieAverageRating
          (deleteRating dbRated (some uidA) midM 7 true).2.1 midM)) :=
  ⟨(mutation_recomputes_aggregate dbEmpty (some uidA) midM 4 none "ridA"
      0).1 ⟨201, "ridA", midM, 4, 0⟩ _ _ rfl,
    (mutation_recomputes_aggregate dbRated (some uidA) midM 4 none "ridA"
      7).2 ⟨midM, 7⟩ _ _ (by decide) rfl⟩

/-! ### C3: the loser of a concurrent first-create race -/

/-- C3 counterexample: in the claimed behaviour no duplicate-key/conflict
error is ever surfaced to the `submitRating` caller, but at this concrete
input — user A's first submission (score 4) losing the create race to a
concurrent commit of `racedRating` — `createRating` returns the surfaced
conflict error `409 You have already rated this movie`; no retry as an
update happens (the stored score stays the racer's 5) and no recompute
runs. -/
theorem race_loser_conflict_surfaced_counterexample :
    createRating dbEmpty (some uidA) midM 4 (some racedRating) "ridA" 0
        true =
      (Except.error ⟨"You have already rated this movie", 409⟩,
        ⟨[racedRating], [movieM], [uidA, uidB, uidC]⟩, []) := rfl

/-- C3 amended: a `submitRating` call that loses a concurrent first-create
race on the `(userId, movieId)` unique index does not retry as an update;
its save fails with the duplicate-key error, which the `post('save')`
error handler maps to a conflict error (`statusCode` 409,
`"You have already rated this movie"`) surfaced to the caller, while the
racer's record stays committed unchanged and no recompute runs. -/
theorem race_loser_gets_conflict_error (db : DB) (u movieId : String)
    (q : ℚ) (m : MovieRec) (x : RatingRec) (newId : String) (now : ℕ)
    (ok : Bool)
    (hu : isValidObjectId u = true)
    (hmid : isValidObjectId movieId = true)
    (hq : invalidScore q = false)
    (hact : findActiveMovie db movieId = some m)
    (hnone : findRating db u movieId = none)
    (hpre : preSaveChecks db movieId u = none)
    (hxu : x.userId = u) (hxm : x.movieId = movieId) :
    createRating db (some u) movieId q (some x) newId now ok =
      (Except.error ⟨"You have already rated this movie", 409⟩,
        { db with ratings := db.ratings ++ [x] }, []) := by
  have hneq : movieId ≠ "" := by
    intro he
    rw [he] at hmid
    exact absurd hmid (by decide)
  have hne : (movieId == "") = false := beq_eq_false_iff_ne.mpr hneq
  have hq' := hq
  simp only [invalidScore, Bool.or_eq_false_iff, Bool.not_eq_false',
    decide_eq_false_iff_not] at hq'
  obtain ⟨⟨hqi, hql⟩, hqg⟩ := hq'
  have hnopair :
      (db.ratings.any fun y => y.userId == u && y.movieId == movieId) =
        false := by
    rw [List.any_eq_false]
    intro y hy
    have := List.find?_eq_none.mp hnone y hy
    simpa using this
  have hxx :
      (db.ratings.any fun y => y.userId == x.userId && y.movieId == x.movieId) =
        false := by
    simp only [hxu, hxm]
    exact hnopair
  have hdup :
      ((db.ratings ++ [x]).any fun y => y.userId == u && y.movieId == movieId) =
        true := by
    simp [List.any_append, hxu, hxm]
  simp only [createRating, hne, Bool.false_eq_true, if_false, hmid,
    Bool.not_true, hq, hact, hnone, applyRace, hxx, saveNewRating, hu,
    Bool.not_false, if_true, hql, hqg, hqi, hdup]
  rw [show preSaveChecks { db with ratings := db.ratings ++ [x] } movieId u =
      preSaveChecks db movieId u from rfl, hpre]

/-- C3 amended-claim witness: at the concrete race of the counterexample,
the conflict outcome follows from the amended theorem. -/
theorem race_loser_gets_conflict_error_witness :
    createRating dbEmpty (some uidA) midM 4 (some racedRating) "ridA" 0
        true =
      (Except.error ⟨"You have already rated this movie", 409⟩,
        { dbEmpty with ratings := dbEmpty.ratings ++ [racedRating] }, []) :=
  race_loser_gets_conflict_error dbEmpty uidA midM 4 movieM racedRating
    "ridA" 0 true (by decide) (by decide) (by decide) (by decide)
    (by decide) (by decide) (by decide) (by decide)

/-! ### C5: at most one rating per (userId, movieId) pair -/

lemma ratings_postRecomputeHook (db : DB) (mid : String) (ok : Bool) :
    (postRecomputeHook db mid ok).1.ratings = db.ratings := by
  cases ok <;> rfl

lemma uniqueIndexOk_of_keys (db' db : DB)
    (h : db'.ratings.map ratingKey = db.ratings.map ratingKey) :
    UniqueIndexOk db → UniqueIndexOk db' := by
  unfold UniqueIndexOk
  rw [h]
  exact id

lemma map_key_setRatingScore (rs : List RatingRec) (u mid : String)
    (q : ℚ) (now : ℕ) :
    (setRatingScore rs u mid q now).map ratingKey = rs.map ratingKey := by
  induction rs with
  | nil => rfl
  | cons r rs ih =>
    by_cases h : r.userId == u && r.movieId == mid
    · simp [setRatingScore, h, ratingKey]
    · simp [setRatingScore, h, ih]

lemma deleteFirstRating_sublist (rs : List RatingRec) (u mid : String) :
    List.Sublist (deleteFirstRating rs u mid) rs := by
  induction rs with
  | nil => exact .refl []
  | cons r rs ih =>
    by_cases h : r.userId == u && r.movieId == mid
    · simp only [deleteFirstRating, if_pos h]
      exact List.sublist_cons_self r rs
    · simp only [deleteFirstRating, if_neg h]
      exact ih.cons₂ r

lemma nodup_append_single (rs : List RatingRec) (x : RatingRec)
    (hnd : (rs.map ratingKey).Nodup)
    (hno : (rs.any fun y => y.userId == x.userId && y.movieId == x.movieId) =
      false) :
    ((rs ++ [x]).map ratingKey).Nodup := by
  rw [List.map_append, List.nodup_append]
  refine ⟨hnd, List.nodup_singleton _, ?_⟩
  intro a ha hax
  obtain ⟨y, hy, hya⟩ := List.mem_map.mp ha
  have hax' : a = ratingKey x := by simpa using hax
  have hkey : ratingKey y = ratingKey x := hya.trans hax'
  have hfail := List.any_eq_false.mp hno y hy
  apply hfail
  have h1 : y.userId = x.userId := congrArg Prod.fst hkey
  have h2 : y.movieId = x.movieId := congrArg Prod.snd hkey
  simp [h1, h2]

lemma uniqueIndexOk_applyRace (db : DB) (race : Option RatingRec)
    (h : UniqueIndexOk db) : UniqueIndexOk (applyRace db race) := by
  cases race with
  | none => exact h
  | some x =>
    simp only [applyRace]
    split_ifs with hx
    · exact h
    · exact nodup_append_single db.ratings x h (by simpa using hx)

lemma uniqueIndexOk_saveExisting (db : DB) (r : RatingRec) (q : ℚ)
    (now : ℕ) (ok : Bool) (h : UniqueIndexOk db) :
    UniqueIndexOk (saveExistingRating db r q now ok).2.1 := by
  unfold saveExistingRating
  cases hpre : preSaveChecks db r.movieId r.userId with
  | some e => exact h
  | none =>
    show UniqueIndexOk (postRecomputeHook
      { db with ratings := setRatingScore db.ratings r.userId r.movieId q now }
      r.movieId ok).1
    refine uniqueIndexOk_of_keys _ db ?_ h
    rw [ratings_postRecomputeHook]
    exact map_key_setRatingScore db.ratings r.userId r.movieId q now

lemma uniqueIndexOk_saveNew (db : DB) (r : RatingRec) (ok : Bool)
    (h : UniqueIndexOk db) : UniqueIndexOk (saveNewRating db r ok).2.1 := by
  unfold saveNewRating
  split_ifs with h1 h2 h3 h4 h5 hdup
  · exact h
  · exact h
  · exact h
  · exact h
  · exact h
  · cases hpre : preSaveChecks db r.movieId r.userId <;> exact h
  · cases hpre : preSaveChecks db r.movieId r.userId with
    | some e => exact h
    | none =>
      show UniqueIndexOk (postRecomputeHook
        { db with ratings := db.ratings ++ [r] } r.movieId ok).1
      unfold UniqueIndexOk
      rw [ratings_postRecomputeHook]
      exact nodup_append_single db.ratings r h (by simpa using hdup)

lemma uniqueIndexOk_createRating (db : DB) (auth : Option String)
    (movieId : String) (q : ℚ) (race : Option RatingRec) (newId : String)
    (now : ℕ) (ok : Bool) (h : UniqueIndexOk db) :
    UniqueIndexOk (createRating db auth movieId q race newId now ok).2.1 := by
  cases auth with
  | none => exact h
  | some u =>
    simp only [createRating]
    split_ifs with h1 h2 h3
    · exact h
    · exact h
    · exact h
    · cases hact : findActiveMovie db movieId with
      | none => exact h
      | some m =>
        simp only []
        cases hex : findRating db u movieId with
        | some r => exact uniqueIndexOk_saveExisting db r q now ok h
        | none =>
          exact uniqueIndexOk_saveNew _ _ ok
            (uniqueIndexOk_applyRace db race h)

lemma uniqueIndexOk_deleteRating (db : DB) (auth : Option String)
    (movieId : String) (now : ℕ) (ok : Bool) (h : UniqueIndexOk db) :
    UniqueIndexOk (deleteRating db auth movieId now ok).2.1 := by
  cases auth with
  | none => exact h
  | some u =>
    simp only [deleteRating]
    split_ifs with h1
    · exact h
    · cases hex : findRating db u movieId with
      | none => exact h
      | some r =>
        show UniqueIndexOk (postRecomputeHook
          { db with ratings := deleteFirstRating db.ratings u movieId }
          movieId ok).1
        unfold UniqueIndexOk
        rw [ratings_postRecomputeHook]
        exact List.Nodup.sublist
          (List.Sublist.map ratingKey
            (deleteFirstRating_sublist db.ratings u movieId)) h

/-- C5: the one-rating-per-(user, movie) invariant — every sequence of
submit/delete operations preserves the unique-index invariant (at most
one stored record per pair), and a submission for a pair that already has
a record changes no `(userId, movieId)` key multiset at all: the record
is updated in place, never duplicated. -/
theorem rating_uniqueness (db : DB) :
    (∀ ops : List Op, UniqueIndexOk db → UniqueIndexOk (runOps db ops)) ∧
    (∀ u movieId q race newId now ok r,
      findRating db u movieId = some r →
      ((createRating db (some u) movieId q race newId now ok).2.1.ratings).map
          ratingKey =
        db.ratings.map ratingKey) := by
  constructor
  · intro ops
    induction ops generalizing db with
    | nil => exact id
    | cons op ops ih =>
      intro h
      show UniqueIndexOk (runOps (applyOp db op) ops)
      refine ih (applyOp db op) ?_
      cases op with
      | submit auth movieId q race newId now ok =>
        exact uniqueIndexOk_createRating db auth movieId q race newId now ok h
      | remove auth movieId now ok =>
        exact uniqueIndexOk_deleteRating db auth movieId now ok h
  · intro u movieId q race newId now ok r hex
    simp only [createRating]
    split_ifs with h1 h2 h3
    · rfl
    · rfl
    · rfl
    · cases hact : findActiveMovie db movieId with
      | none => rfl
      | some m =>
        simp only [hex]
        unfold saveExistingRating
        cases hpre : preSaveChecks db r.movieId r.userId with
        | some e => rfl
        | none =>
          show ((postRecomputeHook
            { db with
                ratings := setRatingScore db.ratings r.userId r.movieId q now }
            r.movieId ok).1.ratings).map ratingKey = db.ratings.map ratingKey
          rw [ratings_postRecomputeHook]
          exact map_key_setRatingScore db.ratings r.userId r.movieId q now

/-- C5 at a concrete store: the invariant holds after user A re-submits a
5 and user B submits a 3 on `dbRated`, and A's re-submission (A already
rated `movieM`) leaves the key multiset unchanged. -/
theorem rating_uniqueness_witness :
    UniqueIndexOk (runOps dbRated
      [.submit (some uidA) midM 5 none "rid2" 3 true,
        .submit (some uidB) midM 3 none "rid3" 4 true]) ∧
    ((createRating dbRated (some uidA) midM 5 none "rid2" 3
        true).2.1.ratings).map ratingKey = dbRated.ratings.map ratingKey :=
  ⟨(rating_uniqueness dbRated).1 _ (by decide),
    (rating_uniqueness dbRated).2 uidA midM 5 none "rid2" 3 true ratA
      (by decide)⟩

/-! ### C7: score validation -/

lemma valid_movieId_ne_empty (movieId : String)
    (hmid : isValidObjectId movieId = true) : (movieId == "") = false := by
  refine beq_eq_false_iff_ne.mpr ?_
  intro he
  rw [he] at hmid
  exact absurd hmid (by decide)

lemma any_pair_eq_false (db : DB) (u movieId : String)
    (hnone : findRating db u movieId = none) :
    (db.ratings.any fun y => y.userId == u && y.movieId == movieId) =
      false := by
  rw [List.any_eq_false]
  intro y hy
  have := List.find?_eq_none.mp hnone y hy
  simpa using this

/-- C7: `submitRating` rejects every score failing the controller check
(`!Number.isInteger || < 1 || > 5`) with the 400 error
`Rating must be an integer between 1 and 5`, leaving the store untouched
and running no recompute; the check fires for 0, 6 and 2.5 and passes the
boundary scores 1 and 5, which (against a store that accepts the insert)
are stored with a 201 outcome. -/
theorem submit_score_validation :
    (∀ (db : DB) (u movieId : String) (q : ℚ) (race : Option RatingRec)
        (newId : String) (now : ℕ) (ok : Bool),
      isValidObjectId movieId = true →
      invalidScore q = true →
      createRating db (some u) movieId q race newId now ok =
        (.error ⟨"Rating must be an integer between 1 and 5", 400⟩, db, [])) ∧
    invalidScore 0 = true ∧ invalidScore 6 = true ∧
    invalidScore (5/2) = true ∧ invalidScore 1 = false ∧
    invalidScore 5 = false ∧
    (∀ (db : DB) (u movieId : String) (m : MovieRec) (q : ℚ)
        (newId : String) (now : ℕ) (ok : Bool),
      isValidObjectId u = true →
      isValidObjectId movieId = true →
      findActiveMovie db movieId = some m →
      preSaveChecks db movieId u = none →
      findRating db u movieId = none →
      (q = 1 ∨ q = 5) →
      (createRating db (some u) movieId q none newId now ok).1 =
        .ok ⟨201, newId, movieId, q, now⟩) := by
  refine ⟨?_, by decide, by decide,
    by norm_num [invalidScore, isIntegerQ], by decide, by decide, ?_⟩
  · intro db u movieId q race newId now ok hmid hq
    have hne := valid_movieId_ne_empty movieId hmid
    simp [createRating, hne, hmid, hq]
  · intro db u movieId m q newId now ok hu hmid hact hpre hnone hq
    have hne := valid_movieId_ne_empty movieId hmid
    have hqinv : invalidScore q = false := by
      rcases hq with rfl | rfl <;> decide
    have hq' := hqinv
    simp only [invalidScore, Bool.or_eq_false_iff, Bool.not_eq_false',
      decide_eq_false_iff_not] at hq'
    obtain ⟨⟨hqi, hql⟩, hqg⟩ := hq'
    have hnopair := any_pair_eq_false db u movieId hnone
    simp only [createRating, hne, Bool.false_eq_true, if_false, hmid,
      Bool.not_true, hqinv, hact, hnone, applyRace, saveNewRating, hu,
      Bool.not_false, if_true, hql, hqg, hqi, hnopair]
    rw [hpre]

/-- C7 at concrete inputs: score 0 is rejected with the 400 validation
error and no state change, and score 1 on the fresh store is accepted
with a 201 outcome. -/
theorem submit_score_validation_witness :
    createRating dbEmpty (some uidA) midM 0 none "ridA" 0 true =
      (.error ⟨"Rating must be an integer between 1 and 5", 400⟩,
        dbEmpty, []) ∧
    (createRating dbEmpty (some uidA) midM 1 none "ridA" 0 true).1 =
      .ok ⟨201, "ridA", midM, 1, 0⟩ :=
  ⟨submit_score_validation.1 dbEmpty uidA midM 0 none "ridA" 0 true
      (by decide) (by decide),
    submit_score_validation.2.2.2.2.2.2 dbEmpty uidA midM movieM 1 "ridA" 0
      true (by decide) (by decide) (by decide) (by decide) (by decide)
      (Or.inl rfl)⟩

/-! ### C8: deletion fails with 404 exactly when no rating exists -/

lemma findRating_deleteFirst_none (rs : List RatingRec) (u mid : String)
    (hnd : (rs.map ratingKey).Nodup) :
    (deleteFirstRating rs u mid).find?
      (fun r => r.userId == u && r.movieId == mid) = none := by
  induction rs with
  | nil => rfl
  | cons x rs ih =>
    simp only [List.map_cons, List.nodup_cons] at hnd
    obtain ⟨hx, hnd'⟩ := hnd
    by_cases h : x.userId == u && x.movieId == mid
    · simp only [deleteFirstRating, if_pos h]
      rw [List.find?_eq_none]
      intro y hy hpred
      apply hx
      have h1 : x.userId = u ∧ x.movieId = mid := by simpa using h
      have h2 : y.userId = u ∧ y.movieId = mid := by simpa using hpred
      have hk : ratingKey y = ratingKey x := by
        simp [ratingKey, h1.1, h1.2, h2.1, h2.2]
      exact hk ▸ List.mem_map_of_mem ratingKey hy
    · simp only [deleteFirstRating, if_neg h]
      rw [List.find?_cons_of_neg _ (by simpa using h)]
      exact ih hnd'

lemma deleteFirst_length (rs : List RatingRec) (u mid : String)
    (r : RatingRec)
    (hex : rs.find? (fun x => x.userId == u && x.movieId == mid) = some r) :
    (deleteFirstRating rs u mid).length + 1 = rs.length := by
  induction rs with
  | nil => exact absurd hex (by simp)
  | cons x rs ih =>
    by_cases h : x.userId == u && x.movieId == mid
    · have h' : x.userId = u ∧ x.movieId = mid := by simpa using h
      simp [deleteFirstRating, h'.1, h'.2]
    · rw [List.find?_cons_of_neg _ (by simpa using h)] at hex
      simp only [deleteFirstRating, if_neg h, List.length_cons]
      rw [ih hex]

/-- C8: with a valid movie id, `deleteRating` fails with
`404 Rating not found` (and changes nothing) exactly when no rating
record exists for the (actor, movie) pair; when one exists, it answers
with the movie id and the deletion timestamp, the record is removed
(under the unique index the pair no longer resolves), and the ratings
count drops by one. -/
theorem delete_not_found_iff (db : DB) (u movieId : String) (now : ℕ)
    (ok : Bool) (hmid : isValidObjectId movieId = true)
    (hunique : UniqueIndexOk db) :
    (findRating db u movieId = none →
      deleteRating db (some u) movieId now ok =
        (.error ⟨"Rating not found", 404⟩, db, [])) ∧
    (∀ r, findRating db u movieId = some r →
      (deleteRating db (some u) movieId now ok).1 = .ok ⟨r.movieId, now⟩ ∧
      findRating (deleteRating db (some u) movieId now ok).2.1 u movieId =
        none ∧
      (deleteRating db (some u) movieId now ok).2.1.ratings.length + 1 =
        db.ratings.length) := by
  constructor
  · intro hnone
    simp [deleteRating, hmid, hnone]
  · intro r hex
    refine ⟨?_, ?_, ?_⟩
    · simp [deleteRating, hmid, hex]
    · show (deleteRating db (some u) movieId now ok).2.1.ratings.find?
        (fun x => x.userId == u && x.movieId == movieId) = none
      have hrat : (deleteRating db (some u) movieId now ok).2.1.ratings =
          deleteFirstRating db.ratings u movieId := by
        simp [deleteRating, hmid, hex, ratings_postRecomputeHook]
      rw [hrat]
      exact findRating_deleteFirst_none db.ratings u movieId hunique
    · have hrat : (deleteRating db (some u) movieId now ok).2.1.ratings =
          deleteFirstRating db.ratings u movieId := by
        simp [deleteRating, hmid, hex, ratings_postRecomputeHook]
      rw [hrat]
      exact deleteFirst_length db.ratings u movieId r hex

/-- C8 at concrete stores: deleting user A's nonexistent rating on the
fresh store answers `404 Rating not found`; deleting the existing rating
on `dbRated` answers the movie id with the deletion time. -/
theorem delete_not_found_iff_witness :
    deleteRating dbEmpty (some uidA) midM 7 true =
      (.error ⟨"Rating not found", 404⟩, dbEmpty, []) ∧
    (deleteRating dbRated (some uidA) midM 7 true).1 = .ok ⟨midM, 7⟩ :=
  ⟨(delete_not_found_iff dbEmpty uidA midM 7 true (by decide)
      (by decide)).1 (by decide),
    ((delete_not_found_iff dbRated uidA midM 7 true (by decide)
      (by decide)).2 ratA (by decide)).1⟩

/-! ### C9: the pagination contract -/

lemma ceil_div_eq_intDiv (t : ℕ) (l : ℤ) (hl : 1 ≤ l) :
    ⌈(t : ℚ) / (l : ℚ)⌉ = ((t : ℤ) + l - 1) / l := by
  have hl0 : (0:ℤ) < l := hl
  have hlq : (0:ℚ) < (l:ℚ) := by exact_mod_cast hl0
  have h1 : ((t:ℤ) + l - 1) / l * l ≤ (t:ℤ) + l - 1 :=
    Int.ediv_mul_le _ (by positivity)
  have h2 : (t:ℤ) + l - 1 < (((t:ℤ) + l - 1) / l + 1) * l :=
    Int.lt_ediv_add_one_mul_self _ hl0
  rw [Int.ceil_eq_iff]
  constructor
  · rw [lt_div_iff₀ hlq]
    have hzl : (((t:ℤ) + l - 1) / l - 1) * l < (t:ℤ) := by nlinarith [h1]
    exact_mod_cast hzl
  · rw [div_le_iff₀ hlq]
    have hub : (t:ℤ) ≤ ((t:ℤ) + l - 1) / l * l := by nlinarith [h2]
    exact_mod_cast hub

/-- C9: the two paginated rating-list endpoints reject `page < 1` or
`limit` outside [1, 100] with the 400 error
`Invalid pagination parameters`, and every successful response carries
the total record count and a page count equal to
`ceil(total / limit) = (total + limit - 1) / limit`, along with the
requested page and page size. -/
theorem pagination_contract (db : DB) (u movieId : String) (m : MovieRec)
    (page limit : ℤ) :
    ((page < 1 ∨ limit < 1 ∨ limit > 100) →
      (getUserRatings db (some u) page limit =
        .error ⟨"Invalid pagination parameters", 400⟩) ∧
      (isValidObjectId movieId = true →
        findActiveMovie db movieId = some m →
        getMovieRatings db movieId page limit =
          .error ⟨"Invalid pagination parameters", 400⟩)) ∧
    (1 ≤ page → 1 ≤ limit → limit ≤ 100 →
      (∀ rs pg, getUserRatings db (some u) page limit = .ok (rs, pg) →
        pg.totalRatings =
          (db.ratings.filter (fun r => r.userId == u)).length ∧
        pg.totalPages = ((pg.totalRatings : ℤ) + limit - 1) / limit ∧
        pg.currentPage = page ∧ pg.ratingsPerPage = limit) ∧
      (∀ st rs pg,
        getMovieRatings db movieId page limit = .ok (st, rs, pg) →
        pg.totalRatings = (ratingsForMovie db movieId).length ∧
        pg.totalPages = ((pg.totalRatings : ℤ) + limit - 1) / limit ∧
        pg.currentPage = page ∧ pg.ratingsPerPage = limit)) := by
  constructor
  · intro h
    have hc : (page < 1 || limit < 1 || limit > 100) = true := by
      rcases h with h | h | h <;> simp [h]
    constructor
    · simp only [getUserRatings, hc]
      rfl
    · intro hmid hact
      simp only [getMovieRatings, hmid, Bool.not_true, Bool.false_eq_true,
        if_false, hact, hc]
      rfl
  · intro hp hl1 hl2
    have hcf : (page < 1 || limit < 1 || limit > 100) = false := by
      simp only [Bool.or_eq_false_iff, decide_eq_false_iff_not, not_lt]
      omega
    constructor
    · intro rs pg h
      simp only [getUserRatings, hcf, Bool.false_eq_true, if_false,
        Except.ok.injEq, Prod.mk.injEq] at h
      obtain ⟨-, hpg⟩ := h
      subst hpg
      refine ⟨rfl, ?_, rfl, rfl⟩
      exact ceil_div_eq_intDiv _ limit hl1
    · intro st rs pg h
      by_cases h1 : isValidObjectId movieId = true
      · simp only [getMovieRatings, h1, Bool.not_true, Bool.false_eq_true,
          if_false] at h
        cases hact : findActiveMovie db movieId with
        | none =>
          rw [hact] at h
          exact absurd h (by simp)
        | some m' =>
          rw [hact] at h
          simp only [hcf, Bool.false_eq_true, if_false, Except.ok.injEq,
            Prod.mk.injEq] at h
          obtain ⟨-, -, hpg⟩ := h
          subst hpg
          refine ⟨rfl, ?_, rfl, rfl⟩
          exact ceil_div_eq_intDiv _ limit hl1
      · have h1' : isValidObjectId movieId = false :=
          Bool.eq_false_iff.mpr h1
        simp only [getMovieRatings, h1', Bool.not_false, if_true] at h
        exact absurd h (by simp)

/-- C9 at concrete inputs: `page = 0` is rejected by both endpoints on
`dbFives`, and the successful page (page 1, limit 2) carries the total
count and the integer ceiling page count for both endpoints. -/
theorem pagination_contract_witness :
    getUserRatings dbFives (some uidA) 0 12 =
      .error ⟨"Invalid pagination parameters", 400⟩ ∧
    getMovieRatings dbFives midM 0 12 =
      .error ⟨"Invalid pagination parameters", 400⟩ ∧
    ((mkPagination 1 2 1).totalRatings =
        (dbFives.ratings.filter (fun r => r.userId == uidA)).length ∧
      (mkPagination 1 2 1).totalPages =
        (((mkPagination 1 2 1).totalRatings : ℤ) + 2 - 1) / 2 ∧
      (mkPagination 1 2 1).currentPage = 1 ∧
      (mkPagination 1 2 1).ratingsPerPage = 2) ∧
    ((mkPagination 1 2 3).totalRatings =
        (ratingsForMovie dbFives midM).length ∧
      (mkPagination 1 2 3).totalPages =
        (((mkPagination 1 2 3).totalRatings : ℤ) + 2 - 1) / 2 ∧
      (mkPagination 1 2 3).currentPage = 1 ∧
      (mkPagination 1 2 3).ratingsPerPage = 2) :=
  ⟨((pagination_contract dbFives uidA midM movieM 0 12).1
      (Or.inl (by decide))).1,
    ((pagination_contract dbFives uidA midM movieM 0 12).1
      (Or.inl (by decide))).2 (by decide) (by decide),
    ((pagination_contract dbFives uidA midM movieM 1 2).2 (by decide)
      (by decide) (by decide)).1 _ (mkPagination 1 2 1) rfl,
    ((pagination_contract dbFives uidA midM movieM 1 2).2 (by decide)
      (by decide) (by decide)).2 (getMovieAverageRating dbFives midM) _
      (mkPagination 1 2 3) rfl⟩

end Cinema
